import Mathlib

/-!
# Verification of the wrangler2 workflow-instance execution engine

Shallow embedding of the `Engine` Durable Object from
`packages/wrangler/src/dev-registry/daemon.ts` (the workflow-instance
execution engine), together with the pieces of its collaborators that the
engine observes.  Async methods are modelled as sequential state-passing
functions on an explicit `EngineState`; JavaScript `unknown` values are
modelled by a small inductive `Value` type; a step runner is an explicit
function from the triggering event to an outcome (resolve or throw).
-/

namespace Wrangler

/-- A JavaScript value, as far as the engine inspects one: results and
error payloads are opaque data carried through logs. -/
inductive Value where
  | null : Value
  | bool (b : Bool) : Value
  | num (n : Int) : Value
  | str (s : String) : Value
deriving DecidableEq

/-- Modelled from the spec: the status enum of §6,
`Queued | Running | Errored | Terminated | Complete` (daemon.ts pulls
`InstanceStatus` from `./instance`, which is not under src/). -/
inductive InstanceStatus where
  | Queued : InstanceStatus
  | Running : InstanceStatus
  | Errored : InstanceStatus
  | Terminated : InstanceStatus
  | Complete : InstanceStatus
deriving DecidableEq

/-- Modelled from the spec: the log event kinds of §6 used by this core
(daemon.ts pulls `InstanceEvent` from `./instance`, not under src/). -/
inductive InstanceEvent where
  | WORKFLOW_QUEUED : InstanceEvent
  | WORKFLOW_START : InstanceEvent
  | WORKFLOW_SUCCESS : InstanceEvent
  | WORKFLOW_FAILURE : InstanceEvent
deriving DecidableEq

/-- Modelled from the spec: trigger source recorded in the
`WORKFLOW_QUEUED` log metadata (`InstanceTrigger.API` in daemon.ts comes
from `./instance`, not under src/). -/
inductive InstanceTrigger where
  | API : InstanceTrigger
deriving DecidableEq

/-- `DatabaseWorkflow` of daemon.ts. -/
structure DatabaseWorkflow where
  name : String
  id : String
  created_on : String
  modified_on : String
  script_name : String
  class_name : Option String
  triggered_on : Option String
deriving DecidableEq

/-- `DatabaseVersion` of daemon.ts. -/
structure DatabaseVersion where
  id : String
  class_name : String
  created_on : String
  modified_on : String
  workflow_id : String
  mutable_pipeline_id : String
deriving DecidableEq

/-- `DatabaseInstance` of daemon.ts. -/
structure DatabaseInstance where
  name : String
  created_on : String
  modified_on : String
  workflow_id : String
  version_id : String
  status : InstanceStatus
  started_on : Option String
  ended_on : Option String
deriving DecidableEq

/-- The triggering `WorkflowEvent<unknown>`; the engine only reads its
`payload` field (line `params: event.payload`). -/
structure WorkflowEvent where
  payload : Value
deriving DecidableEq

/-- Modelled from the spec: the singleton `INSTANCE_METADATA` slot value,
`{accountId, workflow, version, instance, event}` (§6; the
`InstanceMetadata` type of daemon.ts comes from `./instance`, not under
src/). -/
structure InstanceMetadata where
  accountId : Nat
  workflow : DatabaseWorkflow
  version : DatabaseVersion
  inst : DatabaseInstance
  event : WorkflowEvent
deriving DecidableEq

/-- The error object built by `init`'s catch block:
`{name, message}` where `message` is `err.message` for an `Error`
instance and the raw thrown value otherwise. -/
structure NormalizedError where
  name : String
  message : Value
deriving DecidableEq

/-- A JavaScript thrown value as the catch block discriminates it:
either an `Error` instance (with `name` and `message` strings) or any
other value. -/
inductive ThrownValue where
  | errorInstance (name : String) (message : String) : ThrownValue
  | nonError (v : Value) : ThrownValue
deriving DecidableEq

/-- The catch-block normalization of daemon.ts lines 365-378:
`err instanceof Error` yields `{message: err.message, name: err.name}`,
anything else yields `{name: "Error", message: err}`. -/
def normalizeError : ThrownValue → NormalizedError
  | .errorInstance n m => ⟨n, .str m⟩
  | .nonError v => ⟨"Error", v⟩

/-- Outcome of awaiting the opaque step runner
(`this.env.USER_WORKFLOW.run(event, stubStep)`): it either resolves with
a result value or rejects with a thrown value. -/
inductive StepOutcome where
  | success (result : Value) : StepOutcome
  | failure (err : ThrownValue) : StepOutcome

/-- The metadata object of a log entry, one shape per `writeLog` call
site in daemon.ts. -/
inductive LogMetadata where
  | empty : LogMetadata
  | queuedMeta (params : Value) (versionId : String) (triggerSource : InstanceTrigger) : LogMetadata
  | successMeta (result : Value) : LogMetadata
  | failureMeta (error : NormalizedError) : LogMetadata
deriving DecidableEq

/-- One element of the engine's `logs` array, as pushed by `writeLog`. -/
structure LogEntry where
  event : InstanceEvent
  group : Option String
  target : Option String
  metadata : LogMetadata
deriving DecidableEq

/-- Action column of the `priority_queue` table: `1` means add,
`0` means delete. -/
inductive PQAction where
  | Add : PQAction
  | Delete : PQAction
deriving DecidableEq

/-- One row of the `priority_queue` table created by the constructor of
daemon.ts (the unused `created_on` column is omitted). -/
structure ScheduledEntry where
  id : Nat
  target_timestamp : Nat
  action : PQAction
  entryType : Nat
  hash : String
deriving DecidableEq

/-- The deduplication key of a `priority_queue` row: the triple covered
by the table's `UNIQUE (action, entryType, hash)` constraint. -/
def entryKey (e : ScheduledEntry) : PQAction × Nat × String :=
  (e.action, e.entryType, e.hash)

/-- The full observable state of one `Engine` actor: its in-memory
fields (`logs`, `status`, `isRunning`, `accountId`, `instanceId`,
`workflowName`) together with the durable storage it reads and writes
(the `INSTANCE_METADATA` slot, the `priority_queue` table, the pending
alarm).  `metadataPuts` instruments the model: it counts the calls to
`storage.put(INSTANCE_METADATA, ...)`, so that exactly-once write claims
are statable. -/
structure EngineState where
  logs : List LogEntry
  status : InstanceStatus
  isRunning : Bool
  accountId : Option Nat
  instanceId : Option String
  workflowName : Option String
  instanceMetadata : Option InstanceMetadata
  metadataPuts : Nat
  queue : List ScheduledEntry
  nextRowId : Nat
  alarm : Option Nat
deriving DecidableEq

/-- A freshly constructed engine: the field initializers of daemon.ts
(`logs = []`, `status = Queued`, `isRunning = false`, ids undefined) and
empty durable storage (no metadata, empty `priority_queue`, no alarm). -/
def initialEngineState : EngineState :=
  { logs := []
    status := .Queued
    isRunning := false
    accountId := none
    instanceId := none
    workflowName := none
    instanceMetadata := none
    metadataPuts := 0
    queue := []
    nextRowId := 1
    alarm := none }

/-- Modelled from the spec: `TimePriorityQueue.popPastEntries` (§4.2)
removes every entry with `target_timestamp <= now`; its dispatch of the
removed entries to their owners by `entryType` has no effect on the
engine fields the spec describes (the TimePriorityQueue source is not
under src/). -/
def popPastEntries (now : Nat) (s : EngineState) : EngineState :=
  { s with queue := s.queue.filter (fun e => decide (now < e.target_timestamp)) }

/-- Modelled from the spec: `TimePriorityQueue.handleNextAlarm` (§4.2)
arms exactly one wake-up at the minimum remaining `target_timestamp`, or
cancels the pending wake-up when no entries remain (the TimePriorityQueue
source is not under src/). -/
def handleNextAlarm (s : EngineState) : EngineState :=
  { s with alarm := (s.queue.map (fun e => e.target_timestamp)).min? }

/-- Modelled from the spec: `TimePriorityQueue.enqueue(entryType, hash,
targetTimestamp)` (§4.2) inserts an add-row; a duplicate
`(Add, entryType, hash)` insertion is a no-op, never an error (the
TimePriorityQueue source is not under src/; the `UNIQUE` constraint is
the table definition in the Engine constructor). -/
def pqEnqueue (ty : Nat) (h : String) (target : Nat) (s : EngineState) : EngineState :=
  if s.queue.any (fun e => decide (entryKey e = (PQAction.Add, ty, h))) then s
  else
    { s with
      queue := s.queue ++ [⟨s.nextRowId, target, .Add, ty, h⟩]
      nextRowId := s.nextRowId + 1 }

/-- Modelled from the spec: `TimePriorityQueue.cancel(entryType, hash)`
(§4.2) records a cancellation row for the key; safe to call when no
matching add-row exists, and deduplicated by the same `UNIQUE`
constraint (the TimePriorityQueue source is not under src/). -/
def pqCancel (ty : Nat) (h : String) (target : Nat) (s : EngineState) : EngineState :=
  if s.queue.any (fun e => decide (entryKey e = (PQAction.Delete, ty, h))) then s
  else
    { s with
      queue := s.queue ++ [⟨s.nextRowId, target, .Delete, ty, h⟩]
      nextRowId := s.nextRowId + 1 }

/-- `Engine.writeLog`: pushes `{event, group, target, metadata}` onto the
in-memory `logs` array. -/
def writeLog (event : InstanceEvent) (group : Option String) (target : Option String)
    (metadata : LogMetadata) (s : EngineState) : EngineState :=
  { s with logs := s.logs ++ [⟨event, group, target, metadata⟩] }

/-- The terminal-status membership test of `Engine.init`
(`[Errored, Terminated, Complete].includes(status)`). -/
def isTerminal : InstanceStatus → Bool
  | .Errored => true
  | .Terminated => true
  | .Complete => true
  | _ => false

/-- `Engine.getStatus(accountId, instanceId)`: returns `this.status`;
the arguments are unused. -/
def Engine.getStatus (accountId : Nat) (instanceId : String) (s : EngineState) :
    InstanceStatus × EngineState :=
  (s.status, s)

/-- `Engine.setStatus(accountId, instanceId, status)`: assigns
`this.status = status`; the first two arguments are unused. -/
def Engine.setStatus (accountId : Nat) (instanceId : String) (status : InstanceStatus)
    (s : EngineState) : EngineState :=
  { s with status := status }

/-- `Engine.readLogs()`: returns `{logs: this.logs}`. -/
def Engine.readLogs (s : EngineState) : List LogEntry × EngineState :=
  (s.logs, s)

/-- `Engine.abort(reason)`: the method body is empty (a TODO comment
only), so the state is returned unchanged. -/
def Engine.abort (reason : String) (s : EngineState) : EngineState :=
  s

/-- `Engine.userTriggeredTerminate()`: the method body is empty, so the
state is returned unchanged. -/
def Engine.userTriggeredTerminate (s : EngineState) : EngineState :=
  s

/-- The `{id: instance.name}` object returned by `Engine.init`. -/
structure InitResult where
  id : String
deriving DecidableEq

/-- The first-activation block of `Engine.init` (lines 264-284): when the
`INSTANCE_METADATA` slot is empty, persist the metadata, then append a
`WORKFLOW_QUEUED` entry (with the event payload, version id and API
trigger) followed by a `WORKFLOW_START` entry; otherwise do nothing. -/
def firstActivationStep (accountId : Nat) (workflow : DatabaseWorkflow)
    (version : DatabaseVersion) (inst : DatabaseInstance) (event : WorkflowEvent)
    (s : EngineState) : EngineState :=
  match s.instanceMetadata with
  | some _ => s
  | none =>
    let s1 : EngineState :=
      { s with
        instanceMetadata := some ⟨accountId, workflow, version, inst, event⟩
        metadataPuts := s.metadataPuts + 1 }
    let s2 := writeLog .WORKFLOW_QUEUED none none
      (.queuedMeta event.payload version.id .API) s1
    writeLog .WORKFLOW_START none none .empty s2

/-- Lines 332-340 of daemon.ts: set the re-entrancy guard
(`this.isRunning = true`) and run `workflowRunningHandler`, whose
transaction sets the status to `Running`. -/
def beginRun (s : EngineState) : EngineState :=
  { s with isRunning := true, status := .Running }

/-- The success arm of `Engine.init`'s try block: append
`WORKFLOW_SUCCESS` carrying the result, set status to `Complete` in a
transaction, clear the guard. -/
def finishSuccess (result : Value) (s : EngineState) : EngineState :=
  let s1 := writeLog .WORKFLOW_SUCCESS none none (.successMeta result) s
  { s1 with status := .Complete, isRunning := false }

/-- The catch arm of `Engine.init`: normalize the thrown value, append
`WORKFLOW_FAILURE` carrying it, set status to `Errored` in a
transaction, clear the guard. -/
def finishFailure (err : ThrownValue) (s : EngineState) : EngineState :=
  let s1 := writeLog .WORKFLOW_FAILURE none none (.failureMeta (normalizeError err)) s
  { s1 with status := .Errored, isRunning := false }

/-- `Engine.init(accountId, workflow, version, instance, event)`:
drain due timers and re-arm the alarm, return early (undefined) if the
re-entrancy guard is set, record account/instance/workflow names, return
early (undefined) if the status is terminal, run the first-activation
block, set the guard and move to `Running`, await the step runner, and
finish on its success or failure arm, returning `{id: instance.name}`.
The step runner is the opaque `env.USER_WORKFLOW.run`, modelled as a
function of the triggering event; `now` is the clock the drained queue
is compared against. -/
def Engine.init (runner : WorkflowEvent → StepOutcome) (now : Nat)
    (accountId : Nat) (workflow : DatabaseWorkflow) (version : DatabaseVersion)
    (inst : DatabaseInstance) (event : WorkflowEvent) (s : EngineState) :
    Option InitResult × EngineState :=
  let s1 := handleNextAlarm (popPastEntries now s)
  if s1.isRunning then (none, s1)
  else
    let s2 : EngineState :=
      { s1 with
        accountId := some accountId
        instanceId := some inst.name
        workflowName := some workflow.name }
    if isTerminal s2.status then (none, s2)
    else
      let s3 := firstActivationStep accountId workflow version inst event s2
      let s4 := beginRun s3
      match runner event with
      | .success result => (some ⟨inst.name⟩, finishSuccess result s4)
      | .failure err => (some ⟨inst.name⟩, finishFailure err s4)

/-- One remotely invocable engine operation, arguments included. -/
inductive EngineOp where
  | init (runner : WorkflowEvent → StepOutcome) (now : Nat) (accountId : Nat)
      (workflow : DatabaseWorkflow) (version : DatabaseVersion)
      (inst : DatabaseInstance) (event : WorkflowEvent) : EngineOp
  | getStatus (accountId : Nat) (instanceId : String) : EngineOp
  | setStatus (accountId : Nat) (instanceId : String) (status : InstanceStatus) : EngineOp
  | readLogs : EngineOp
  | abort (reason : String) : EngineOp
  | userTriggeredTerminate : EngineOp

/-- Whether an operation is a `setStatus` call. -/
def EngineOp.isSetStatus : EngineOp → Bool
  | .setStatus _ _ _ => true
  | _ => false

/-- The state transformation performed by one engine operation
(return values discarded). -/
def applyEngineOp (op : EngineOp) (s : EngineState) : EngineState :=
  match op with
  | .init runner now a w v inst ev => (Engine.init runner now a w v inst ev s).2
  | .getStatus a i => (Engine.getStatus a i s).2
  | .setStatus a i st => Engine.setStatus a i st s
  | .readLogs => (Engine.readLogs s).2
  | .abort r => Engine.abort r s
  | .userTriggeredTerminate => Engine.userTriggeredTerminate s

/-- Sequential execution of a list of engine operations. -/
def applyEngineOps (ops : List EngineOp) (s : EngineState) : EngineState :=
  ops.foldl (fun s op => applyEngineOp op s) s

/-- One edge of the status state machine of §4.1:
`Queued -> Running -> one of Complete, Errored, Terminated`. -/
inductive StatusStep : InstanceStatus → InstanceStatus → Prop
  | queuedRunning : StatusStep .Queued .Running
  | runningComplete : StatusStep .Running .Complete
  | runningErrored : StatusStep .Running .Errored
  | runningTerminated : StatusStep .Running .Terminated

/-- Forward motion along the state machine: the reflexive-transitive
closure of its edges. -/
def statusLe : InstanceStatus → InstanceStatus → Prop :=
  Relation.ReflTransGen StatusStep

/-- Number of occurrences of a given event kind in a log sequence. -/
def countEvent (ev : InstanceEvent) (logs : List LogEntry) : Nat :=
  (logs.filter (fun l => decide (l.event = ev))).length

section HelperLemmas

variable (now : Nat) (s : EngineState)

@[simp] theorem popPast_status : (popPastEntries now s).status = s.status := rfl
@[simp] theorem popPast_logs : (popPastEntries now s).logs = s.logs := rfl
@[simp] theorem popPast_isRunning : (popPastEntries now s).isRunning = s.isRunning := rfl
@[simp] theorem popPast_metadata : (popPastEntries now s).instanceMetadata = s.instanceMetadata := rfl
@[simp] theorem popPast_metadataPuts : (popPastEntries now s).metadataPuts = s.metadataPuts := rfl

@[simp] theorem arm_status : (handleNextAlarm s).status = s.status := rfl
@[simp] theorem arm_logs : (handleNextAlarm s).logs = s.logs := rfl
@[simp] theorem arm_isRunning : (handleNextAlarm s).isRunning = s.isRunning := rfl
@[simp] theorem arm_metadata : (handleNextAlarm s).instanceMetadata = s.instanceMetadata := rfl
@[simp] theorem arm_metadataPuts : (handleNextAlarm s).metadataPuts = s.metadataPuts := rfl
@[simp] theorem arm_queue : (handleNextAlarm s).queue = s.queue := rfl

end HelperLemmas

/-- The state reached by `init` after draining due timers, re-arming the
alarm and recording the account, instance and workflow names. -/
def afterChecks (now : Nat) (accountId : Nat) (workflow : DatabaseWorkflow)
    (inst : DatabaseInstance) (s : EngineState) : EngineState :=
  { handleNextAlarm (popPastEntries now s) with
    accountId := some accountId
    instanceId := some inst.name
    workflowName := some workflow.name }

/-- `init` with the re-entrancy guard set: the drained, re-armed state is
returned unchanged otherwise, and the result is undefined (`none`). -/
theorem init_guard_eq (runner : WorkflowEvent → StepOutcome) (now a : Nat)
    (w : DatabaseWorkflow) (v : DatabaseVersion) (inst : DatabaseInstance)
    (ev : WorkflowEvent) (s : EngineState) (hg : s.isRunning = true) :
    Engine.init runner now a w v inst ev s = (none, handleNextAlarm (popPastEntries now s)) := by
  unfold Engine.init
  simp [hg]

/-- `init` on a terminal status with the guard clear: only the name
fields are written, and the result is undefined (`none`). -/
theorem init_terminal_eq (runner : WorkflowEvent → StepOutcome) (now a : Nat)
    (w : DatabaseWorkflow) (v : DatabaseVersion) (inst : DatabaseInstance)
    (ev : WorkflowEvent) (s : EngineState) (hg : s.isRunning = false)
    (ht : isTerminal s.status = true) :
    Engine.init runner now a w v inst ev s = (none, afterChecks now a w inst s) := by
  unfold Engine.init afterChecks
  simp [hg, ht]

/-- `init` on a non-terminal status with the guard clear: the
first-activation block runs, the run begins, and the step outcome
decides the finishing arm; the result is `{id: instance.name}`. -/
theorem init_run_eq (runner : WorkflowEvent → StepOutcome) (now a : Nat)
    (w : DatabaseWorkflow) (v : DatabaseVersion) (inst : DatabaseInstance)
    (ev : WorkflowEvent) (s : EngineState) (hg : s.isRunning = false)
    (ht : isTerminal s.status = false) :
    Engine.init runner now a w v inst ev s =
      (some ⟨inst.name⟩,
        match runner ev with
        | .success r =>
            finishSuccess r (beginRun (firstActivationStep a w v inst ev (afterChecks now a w inst s)))
        | .failure e =>
            finishFailure e (beginRun (firstActivationStep a w v inst ev (afterChecks now a w inst s)))) := by
  unfold Engine.init afterChecks
  simp [hg, ht]
  cases runner ev <;> simp

section StageLemmas

variable (a : Nat) (w : DatabaseWorkflow) (v : DatabaseVersion)
variable (inst : DatabaseInstance) (ev : WorkflowEvent) (now : Nat) (s : EngineState)

@[simp] theorem afterChecks_status : (afterChecks now a w inst s).status = s.status := rfl
@[simp] theorem afterChecks_logs : (afterChecks now a w inst s).logs = s.logs := rfl
@[simp] theorem afterChecks_isRunning : (afterChecks now a w inst s).isRunning = s.isRunning := rfl
@[simp] theorem afterChecks_metadata :
    (afterChecks now a w inst s).instanceMetadata = s.instanceMetadata := rfl
@[simp] theorem afterChecks_metadataPuts :
    (afterChecks now a w inst s).metadataPuts = s.metadataPuts := rfl
@[simp] theorem afterChecks_queue :
    (afterChecks now a w inst s).queue = (popPastEntries now s).queue := rfl
@[simp] theorem afterChecks_alarm :
    (afterChecks now a w inst s).alarm = (handleNextAlarm (popPastEntries now s)).alarm := rfl

@[simp] theorem firstActivation_status :
    (firstActivationStep a w v inst ev s).status = s.status := by
  cases h : s.instanceMetadata <;> simp [firstActivationStep, writeLog, h]

@[simp] theorem firstActivation_isRunning :
    (firstActivationStep a w v inst ev s).isRunning = s.isRunning := by
  cases h : s.instanceMetadata <;> simp [firstActivationStep, writeLog, h]

@[simp] theorem firstActivation_queue :
    (firstActivationStep a w v inst ev s).queue = s.queue := by
  cases h : s.instanceMetadata <;> simp [firstActivationStep, writeLog, h]

@[simp] theorem firstActivation_alarm :
    (firstActivationStep a w v inst ev s).alarm = s.alarm := by
  cases h : s.instanceMetadata <;> simp [firstActivationStep, writeLog, h]

@[simp] theorem beginRun_status : (beginRun s).status = .Running := rfl
@[simp] theorem beginRun_isRunning : (beginRun s).isRunning = true := rfl
@[simp] theorem beginRun_logs : (beginRun s).logs = s.logs := rfl
@[simp] theorem beginRun_queue : (beginRun s).queue = s.queue := rfl
@[simp] theorem beginRun_alarm : (beginRun s).alarm = s.alarm := rfl

@[simp] theorem finishSuccess_status (r : Value) : (finishSuccess r s).status = .Complete := rfl
@[simp] theorem finishSuccess_isRunning (r : Value) : (finishSuccess r s).isRunning = false := rfl
@[simp] theorem finishSuccess_queue (r : Value) : (finishSuccess r s).queue = s.queue := rfl
@[simp] theorem finishSuccess_alarm (r : Value) : (finishSuccess r s).alarm = s.alarm := rfl
@[simp] theorem finishSuccess_logs (r : Value) :
    (finishSuccess r s).logs = s.logs ++ [⟨.WORKFLOW_SUCCESS, none, none, .successMeta r⟩] := rfl

@[simp] theorem finishFailure_status (e : ThrownValue) : (finishFailure e s).status = .Errored := rfl
@[simp] theorem finishFailure_isRunning (e : ThrownValue) :
    (finishFailure e s).isRunning = false := rfl
@[simp] theorem finishFailure_queue (e : ThrownValue) : (finishFailure e s).queue = s.queue := rfl
@[simp] theorem finishFailure_alarm (e : ThrownValue) : (finishFailure e s).alarm = s.alarm := rfl
@[simp] theorem finishFailure_logs (e : ThrownValue) :
    (finishFailure e s).logs =
      s.logs ++ [⟨.WORKFLOW_FAILURE, none, none, .failureMeta (normalizeError e)⟩] := rfl

end StageLemmas

/-- The run arms of `init` leave the priority queue exactly as the
drain-and-re-arm step left it. -/
theorem init_queue (runner : WorkflowEvent → StepOutcome) (now a : Nat)
    (w : DatabaseWorkflow) (v : DatabaseVersion) (inst : DatabaseInstance)
    (ev : WorkflowEvent) (s : EngineState) :
    (Engine.init runner now a w v inst ev s).2.queue =
      (handleNextAlarm (popPastEntries now s)).queue := by
  by_cases hg : s.isRunning = true
  · rw [init_guard_eq runner now a w v inst ev s hg]
  · have hg' : s.isRunning = false := by simpa using hg
    by_cases ht : isTerminal s.status = true
    · rw [init_terminal_eq runner now a w v inst ev s hg' ht]
      simp
    · have ht' : isTerminal s.status = false := by simpa using ht
      rw [init_run_eq runner now a w v inst ev s hg' ht']
      cases runner ev <;> simp

/-- The run arms of `init` leave the armed alarm exactly as the
drain-and-re-arm step left it. -/
theorem init_alarm (runner : WorkflowEvent → StepOutcome) (now a : Nat)
    (w : DatabaseWorkflow) (v : DatabaseVersion) (inst : DatabaseInstance)
    (ev : WorkflowEvent) (s : EngineState) :
    (Engine.init runner now a w v inst ev s).2.alarm =
      (handleNextAlarm (popPastEntries now s)).alarm := by
  by_cases hg : s.isRunning = true
  · rw [init_guard_eq runner now a w v inst ev s hg]
  · have hg' : s.isRunning = false := by simpa using hg
    by_cases ht : isTerminal s.status = true
    · rw [init_terminal_eq runner now a w v inst ev s hg' ht]
      simp
    · have ht' : isTerminal s.status = false := by simpa using ht
      rw [init_run_eq runner now a w v inst ev s hg' ht']
      cases runner ev <;> simp

/-! Concrete sample data used by witnesses and counterexamples. -/

/-- A sample workflow row. -/
def sampleWorkflow : DatabaseWorkflow :=
  ⟨"my-workflow", "wf-id", "2024-01-01", "2024-01-01", "script", none, none⟩

/-- A sample version row. -/
def sampleVersion : DatabaseVersion :=
  ⟨"v-id", "", "2024-01-01", "2024-01-01", "wf-id", "pipeline-id"⟩

/-- A sample instance row. -/
def sampleInstance : DatabaseInstance :=
  ⟨"inst-1", "2024-01-01", "2024-01-01", "wf-id", "v-id", .Queued, none, none⟩

/-- A sample triggering event. -/
def sampleEvent : WorkflowEvent := ⟨.str "payload"⟩

/-- A step runner that resolves with the string value "V". -/
def okRunner : WorkflowEvent → StepOutcome := fun _ => .success (.str "V")

/-- A step runner that rejects with a `TypeError` instance. -/
def failRunner : WorkflowEvent → StepOutcome :=
  fun _ => .failure (.errorInstance "TypeError" "boom")

/-- A fresh engine whose persisted status has reached `Complete`. -/
def completeState : EngineState := { initialEngineState with status := .Complete }

/-- A fresh engine whose priority queue holds one already-due entry
(target timestamp 0). -/
def dueState : EngineState :=
  { initialEngineState with queue := [⟨1, 0, .Add, 0, "h"⟩], nextRowId := 2 }

/-- C1: when the step runner resolves with `V` on an invocation that
passes the guard and terminal checks from `Queued`, `init` returns
`{id: instance.name}` via the success arm: the state just before the run
still has status `Queued`, `beginRun` moves it to `Running`, the success
arm moves it to `Complete`, and the final log sequence is the prior one
with a `WORKFLOW_SUCCESS` entry carrying `V` appended. -/
theorem C1_success_path (runner : WorkflowEvent → StepOutcome) (now a : Nat)
    (w : DatabaseWorkflow) (v : DatabaseVersion) (inst : DatabaseInstance)
    (ev : WorkflowEvent) (V : Value) (s : EngineState)
    (hrun : runner ev = .success V) (hguard : s.isRunning = false)
    (hqueued : s.status = .Queued) :
    Engine.init runner now a w v inst ev s =
      (some ⟨inst.name⟩,
        finishSuccess V
          (beginRun (firstActivationStep a w v inst ev (afterChecks now a w inst s)))) ∧
    (firstActivationStep a w v inst ev (afterChecks now a w inst s)).status = .Queued ∧
    (beginRun (firstActivationStep a w v inst ev (afterChecks now a w inst s))).status = .Running ∧
    (finishSuccess V
        (beginRun (firstActivationStep a w v inst ev (afterChecks now a w inst s)))).status = .Complete ∧
    (finishSuccess V
        (beginRun (firstActivationStep a w v inst ev (afterChecks now a w inst s)))).logs =
      (firstActivationStep a w v inst ev (afterChecks now a w inst s)).logs ++
        [⟨.WORKFLOW_SUCCESS, none, none, .successMeta V⟩] := by
  have ht : isTerminal s.status = false := by rw [hqueued]; rfl
  refine ⟨?_, ?_, rfl, rfl, by simp⟩
  · rw [init_run_eq runner now a w v inst ev s hguard ht, hrun]
  · simp [hqueued]

/-- Witness for C1 at a fresh engine with the sample data and the
resolving runner. -/
theorem C1_success_path_witness :
    (okRunner sampleEvent = .success (.str "V") ∧
      initialEngineState.isRunning = false ∧ initialEngineState.status = .Queued) ∧
    (Engine.init okRunner 0 7 sampleWorkflow sampleVersion sampleInstance sampleEvent
        initialEngineState).2.status = .Complete := by
  refine ⟨⟨rfl, rfl, rfl⟩, ?_⟩
  have h := C1_success_path okRunner 0 7 sampleWorkflow sampleVersion sampleInstance
    sampleEvent (.str "V") initialEngineState rfl rfl rfl
  rw [h.1]
  exact h.2.2.2.1

/-- C2: when the step runner throws `E` on an invocation that passes the
guard and terminal checks, `init` completes normally, returning
`{id: instance.name}` via the catch arm; the thrown value is normalized
by `normalizeError` into a `NormalizedError` (an object with exactly the
fields `name` and `message`), a `WORKFLOW_FAILURE` entry carrying it is
appended, and the status is set to `Errored`. -/
theorem C2_failure_path (runner : WorkflowEvent → StepOutcome) (now a : Nat)
    (w : DatabaseWorkflow) (v : DatabaseVersion) (inst : DatabaseInstance)
    (ev : WorkflowEvent) (E : ThrownValue) (s : EngineState)
    (hrun : runner ev = .failure E) (hguard : s.isRunning = false)
    (hnotTerminal : isTerminal s.status = false) :
    Engine.init runner now a w v inst ev s =
      (some ⟨inst.name⟩,
        finishFailure E
          (beginRun (firstActivationStep a w v inst ev (afterChecks now a w inst s)))) ∧
    (finishFailure E
        (beginRun (firstActivationStep a w v inst ev (afterChecks now a w inst s)))).status = .Errored ∧
    (finishFailure E
        (beginRun (firstActivationStep a w v inst ev (afterChecks now a w inst s)))).logs =
      (firstActivationStep a w v inst ev (afterChecks now a w inst s)).logs ++
        [⟨.WORKFLOW_FAILURE, none, none, .failureMeta (normalizeError E)⟩] := by
  refine ⟨?_, rfl, by simp⟩
  rw [init_run_eq runner now a w v inst ev s hguard hnotTerminal, hrun]

/-- Witness for C2 at a fresh engine with the sample data and the
throwing runner. -/
theorem C2_failure_path_witness :
    (failRunner sampleEvent = .failure (.errorInstance "TypeError" "boom") ∧
      initialEngineState.isRunning = false ∧ isTerminal initialEngineState.status = false) ∧
    (Engine.init failRunner 0 7 sampleWorkflow sampleVersion sampleInstance sampleEvent
        initialEngineState).2.status = .Errored := by
  refine ⟨⟨rfl, rfl, rfl⟩, ?_⟩
  have h := C2_failure_path failRunner 0 7 sampleWorkflow sampleVersion sampleInstance
    sampleEvent (.errorInstance "TypeError" "boom") initialEngineState rfl rfl rfl
  rw [h.1]
  exact h.2.1

/-- C3: two `init` calls with identical arguments against a fresh engine
perform exactly one `INSTANCE_METADATA` write in total, and the final log
sequence holds exactly one `WORKFLOW_QUEUED` and one `WORKFLOW_START`
entry, appended in that order as its first two entries. -/
theorem C3_idempotent_first_activation (runner : WorkflowEvent → StepOutcome)
    (now1 now2 a : Nat) (w : DatabaseWorkflow) (v : DatabaseVersion)
    (inst : DatabaseInstance) (ev : WorkflowEvent) :
    (Engine.init runner now1 a w v inst ev initialEngineState).2.metadataPuts = 1 ∧
    (Engine.init runner now2 a w v inst ev
        (Engine.init runner now1 a w v inst ev initialEngineState).2).2.metadataPuts = 1 ∧
    countEvent .WORKFLOW_QUEUED
      (Engine.init runner now2 a w v inst ev
        (Engine.init runner now1 a w v inst ev initialEngineState).2).2.logs = 1 ∧
    countEvent .WORKFLOW_START
      (Engine.init runner now2 a w v inst ev
        (Engine.init runner now1 a w v inst ev initialEngineState).2).2.logs = 1 ∧
    (Engine.init runner now2 a w v inst ev
        (Engine.init runner now1 a w v inst ev initialEngineState).2).2.logs.take 2 =
      [⟨.WORKFLOW_QUEUED, none, none, .queuedMeta ev.payload v.id .API⟩,
       ⟨.WORKFLOW_START, none, none, .empty⟩] := by
  cases hr : runner ev with
  | success r =>
    have h1 : Engine.init runner now1 a w v inst ev initialEngineState =
        (some ⟨inst.name⟩,
          finishSuccess r (beginRun (firstActivationStep a w v inst ev
            (afterChecks now1 a w inst initialEngineState)))) := by
      rw [init_run_eq runner now1 a w v inst ev initialEngineState rfl rfl, hr]
    rw [h1]
    rw [init_terminal_eq runner now2 a w v inst ev
      (finishSuccess r (beginRun (firstActivationStep a w v inst ev
        (afterChecks now1 a w inst initialEngineState)))) rfl rfl]
    exact ⟨rfl, rfl, rfl, rfl, rfl⟩
  | failure e =>
    have h1 : Engine.init runner now1 a w v inst ev initialEngineState =
        (some ⟨inst.name⟩,
          finishFailure e (beginRun (firstActivationStep a w v inst ev
            (afterChecks now1 a w inst initialEngineState)))) := by
      rw [init_run_eq runner now1 a w v inst ev initialEngineState rfl rfl, hr]
    rw [h1]
    rw [init_terminal_eq runner now2 a w v inst ev
      (finishFailure e (beginRun (firstActivationStep a w v inst ev
        (afterChecks now1 a w inst initialEngineState)))) rfl rfl]
    exact ⟨rfl, rfl, rfl, rfl, rfl⟩

/-- C4: on an engine whose status is terminal (`Complete`, `Errored` or
`Terminated`), `init` changes neither the status nor the log sequence. -/
theorem C4_terminal_stability (runner : WorkflowEvent → StepOutcome) (now a : Nat)
    (w : DatabaseWorkflow) (v : DatabaseVersion) (inst : DatabaseInstance)
    (ev : WorkflowEvent) (s : EngineState) (ht : isTerminal s.status = true) :
    (Engine.init runner now a w v inst ev s).2.status = s.status ∧
    (Engine.init runner now a w v inst ev s).2.logs = s.logs := by
  by_cases hg : s.isRunning = true
  · rw [init_guard_eq runner now a w v inst ev s hg]
    exact ⟨rfl, rfl⟩
  · rw [init_terminal_eq runner now a w v inst ev s (by simpa using hg) ht]
    exact ⟨rfl, rfl⟩

/-- Witness for C4 at a completed engine. -/
theorem C4_terminal_stability_witness :
    isTerminal completeState.status = true ∧
    (Engine.init okRunner 0 7 sampleWorkflow sampleVersion sampleInstance sampleEvent
        completeState).2.status = completeState.status ∧
    (Engine.init okRunner 0 7 sampleWorkflow sampleVersion sampleInstance sampleEvent
        completeState).2.logs = completeState.logs :=
  ⟨rfl, C4_terminal_stability okRunner 0 7 sampleWorkflow sampleVersion sampleInstance
    sampleEvent completeState rfl⟩

/-- C6 counterexample: on a terminal-status engine, `init` returns
undefined (`none`), not `{id: instance.name}`. -/
theorem C6_counterexample :
    (Engine.init okRunner 0 7 sampleWorkflow sampleVersion sampleInstance sampleEvent
        completeState).1 = none ∧
    (none : Option InitResult) ≠ some ⟨sampleInstance.name⟩ :=
  ⟨rfl, by simp⟩

/-- C6 amended: `init` returns `{id: instance.name}` exactly on the
invocations that reach the step runner (guard clear and status not
terminal); the re-entrancy-guard and terminal-status early returns
return undefined (`none`). -/
theorem C6_amended_return (runner : WorkflowEvent → StepOutcome) (now a : Nat)
    (w : DatabaseWorkflow) (v : DatabaseVersion) (inst : DatabaseInstance)
    (ev : WorkflowEvent) (s : EngineState) :
    (s.isRunning = false → isTerminal s.status = false →
      (Engine.init runner now a w v inst ev s).1 = some ⟨inst.name⟩) ∧
    (s.isRunning = true ∨ isTerminal s.status = true →
      (Engine.init runner now a w v inst ev s).1 = none) := by
  constructor
  · intro hg ht
    rw [init_run_eq runner now a w v inst ev s hg ht]
  · intro h
    by_cases hg : s.isRunning = true
    · rw [init_guard_eq runner now a w v inst ev s hg]
    · have hg' : s.isRunning = false := by simpa using hg
      have ht : isTerminal s.status = true := by
        rcases h with h | h
        · exact absurd h hg
        · exact h
      rw [init_terminal_eq runner now a w v inst ev s hg' ht]

/-- Witness for C6 amended: a fresh engine takes the run path and gets
the id back; a completed engine gets undefined back. -/
theorem C6_amended_return_witness :
    (initialEngineState.isRunning = false ∧ isTerminal initialEngineState.status = false ∧
      (Engine.init okRunner 0 7 sampleWorkflow sampleVersion sampleInstance sampleEvent
          initialEngineState).1 = some ⟨sampleInstance.name⟩) ∧
    (isTerminal completeState.status = true ∧
      (Engine.init okRunner 0 7 sampleWorkflow sampleVersion sampleInstance sampleEvent
          completeState).1 = none) :=
  ⟨⟨rfl, rfl,
    (C6_amended_return okRunner 0 7 sampleWorkflow sampleVersion sampleInstance sampleEvent
      initialEngineState).1 rfl rfl⟩,
   ⟨rfl,
    (C6_amended_return okRunner 0 7 sampleWorkflow sampleVersion sampleInstance sampleEvent
      completeState).2 (Or.inr rfl)⟩⟩

/-- C8: the claim states the required contract of `abort` and
`userTriggeredTerminate`, but both method bodies are empty in the code:
on every state and reason they return the state unchanged — in
particular the status never becomes `Terminated` and no log entry
recording the reason is appended. -/
theorem C8_abort_is_stub (reason : String) (s : EngineState) :
    Engine.abort reason s = s ∧ Engine.userTriggeredTerminate s = s :=
  ⟨rfl, rfl⟩

/-- C10: `getStatus` and `setStatus` ignore their `accountId` and
`instanceId` arguments entirely: any two argument pairs give the same
result and the same state change. -/
theorem C10_arguments_ignored (a1 a2 : Nat) (i1 i2 : String) (st : InstanceStatus)
    (s : EngineState) :
    Engine.getStatus a1 i1 s = Engine.getStatus a2 i2 s ∧
    Engine.setStatus a1 i1 st s = Engine.setStatus a2 i2 st s :=
  ⟨rfl, rfl⟩

/-! Machinery for the state-machine monotonicity claims. -/

/-- A non-terminal status can move to any terminal-arm target along the
machine (`Queued` via `Running`, `Running` directly). -/
theorem statusLe_run_target (st t : InstanceStatus) (h : isTerminal st = false)
    (ht : t = .Complete ∨ t = .Errored) : statusLe st t := by
  have hrt : StatusStep .Running t := by
    rcases ht with rfl | rfl
    · exact .runningComplete
    · exact .runningErrored
  cases st with
  | Queued => exact Relation.ReflTransGen.head .queuedRunning (Relation.ReflTransGen.single hrt)
  | Running => exact Relation.ReflTransGen.single hrt
  | Errored => cases h
  | Terminated => cases h
  | Complete => cases h

/-- The status after `init` is either unchanged, or — starting from a
non-terminal status — `Complete` or `Errored`. -/
theorem init_status_cases (runner : WorkflowEvent → StepOutcome) (now a : Nat)
    (w : DatabaseWorkflow) (v : DatabaseVersion) (inst : DatabaseInstance)
    (ev : WorkflowEvent) (s : EngineState) :
    (Engine.init runner now a w v inst ev s).2.status = s.status ∨
    (isTerminal s.status = false ∧
      ((Engine.init runner now a w v inst ev s).2.status = .Complete ∨
       (Engine.init runner now a w v inst ev s).2.status = .Errored)) := by
  by_cases hg : s.isRunning = true
  · left
    rw [init_guard_eq runner now a w v inst ev s hg]
    simp
  · have hg' : s.isRunning = false := by simpa using hg
    by_cases ht : isTerminal s.status = true
    · left
      rw [init_terminal_eq runner now a w v inst ev s hg' ht]
      simp
    · have ht' : isTerminal s.status = false := by simpa using ht
      right
      refine ⟨ht', ?_⟩
      rw [init_run_eq runner now a w v inst ev s hg' ht']
      cases runner ev
      · left
        simp
      · right
        simp

/-- Every engine operation other than `setStatus` moves the status only
forward along the state machine. -/
theorem applyEngineOp_statusLe (op : EngineOp) (s : EngineState)
    (hop : op.isSetStatus = false) :
    statusLe s.status (applyEngineOp op s).status := by
  cases op with
  | init runner now a w v inst ev =>
    rcases init_status_cases runner now a w v inst ev s with h | ⟨hnt, h⟩
    · show statusLe s.status (Engine.init runner now a w v inst ev s).2.status
      rw [h]
      exact Relation.ReflTransGen.refl
    · show statusLe s.status (Engine.init runner now a w v inst ev s).2.status
      rcases h with h | h <;> rw [h]
      · exact statusLe_run_target s.status .Complete hnt (Or.inl rfl)
      · exact statusLe_run_target s.status .Errored hnt (Or.inr rfl)
  | getStatus a i => exact Relation.ReflTransGen.refl
  | setStatus a i st => simp [EngineOp.isSetStatus] at hop
  | readLogs => exact Relation.ReflTransGen.refl
  | abort r => exact Relation.ReflTransGen.refl
  | userTriggeredTerminate => exact Relation.ReflTransGen.refl

/-- Every engine operation other than `setStatus` leaves a terminal
status unchanged. -/
theorem applyEngineOp_terminal_fixed (op : EngineOp) (s : EngineState)
    (hop : op.isSetStatus = false) (ht : isTerminal s.status = true) :
    (applyEngineOp op s).status = s.status := by
  cases op with
  | init runner now a w v inst ev =>
    rcases init_status_cases runner now a w v inst ev s with h | ⟨hnt, _⟩
    · exact h
    · rw [ht] at hnt
      cases hnt
  | getStatus a i => rfl
  | setStatus a i st => simp [EngineOp.isSetStatus] at hop
  | readLogs => rfl
  | abort r => rfl
  | userTriggeredTerminate => rfl

@[simp] theorem applyEngineOps_nil (s : EngineState) : applyEngineOps [] s = s := rfl

@[simp] theorem applyEngineOps_cons (op : EngineOp) (ops : List EngineOp) (s : EngineState) :
    applyEngineOps (op :: ops) s = applyEngineOps ops (applyEngineOp op s) := rfl

/-- C5 counterexample: `setStatus` is one of the public operations and
assigns its argument unconditionally, so a terminal status is not
immutable: after `init` drives a fresh engine to `Complete`, a
`setStatus` call moves the status back to `Queued`. -/
theorem C5_counterexample :
    (applyEngineOp (EngineOp.init okRunner 0 7 sampleWorkflow sampleVersion sampleInstance
        sampleEvent) initialEngineState).status = .Complete ∧
    (applyEngineOps
        [EngineOp.init okRunner 0 7 sampleWorkflow sampleVersion sampleInstance sampleEvent,
         EngineOp.setStatus 7 "inst-1" .Queued] initialEngineState).status = .Queued :=
  ⟨rfl, rfl⟩

/-- C5 amended: across every sequence of public operations that contains
no `setStatus` call (`init`, `getStatus`, `readLogs`, `abort`,
`userTriggeredTerminate`), the status only moves forward along
`Queued -> Running -> Complete | Errored | Terminated`, and no such
operation changes the status once it holds a terminal value;
`setStatus` itself assigns its argument unconditionally and is exempt. -/
theorem C5_amended_monotone (ops : List EngineOp) (s : EngineState)
    (hops : ∀ op ∈ ops, op.isSetStatus = false) :
    statusLe s.status (applyEngineOps ops s).status ∧
    (isTerminal s.status = true → (applyEngineOps ops s).status = s.status) := by
  induction ops generalizing s with
  | nil => exact ⟨Relation.ReflTransGen.refl, fun _ => rfl⟩
  | cons op ops ih =>
    have hop : op.isSetStatus = false := hops op (List.mem_cons_self op ops)
    have hops' : ∀ o ∈ ops, o.isSetStatus = false :=
      fun o ho => hops o (List.mem_cons_of_mem op ho)
    have h1 := applyEngineOp_statusLe op s hop
    obtain ⟨ih1, ih2⟩ := ih (applyEngineOp op s) hops'
    refine ⟨?_, ?_⟩
    · rw [applyEngineOps_cons]
      exact Relation.ReflTransGen.trans h1 ih1
    · intro ht
      rw [applyEngineOps_cons]
      have hfix := applyEngineOp_terminal_fixed op s hop ht
      rw [ih2 (by rw [hfix]; exact ht), hfix]

/-- Witness for C5 amended: a setStatus-free operation sequence on a
completed engine leaves the terminal status fixed. -/
theorem C5_amended_monotone_witness :
    (∀ op ∈ [EngineOp.getStatus 7 "inst-1", EngineOp.abort "stop", EngineOp.readLogs],
      op.isSetStatus = false) ∧
    statusLe completeState.status
      (applyEngineOps [EngineOp.getStatus 7 "inst-1", EngineOp.abort "stop",
        EngineOp.readLogs] completeState).status ∧
    (isTerminal completeState.status = true →
      (applyEngineOps [EngineOp.getStatus 7 "inst-1", EngineOp.abort "stop",
        EngineOp.readLogs] completeState).status = completeState.status) :=
  ⟨by decide,
   (C5_amended_monotone [EngineOp.getStatus 7 "inst-1", EngineOp.abort "stop",
      EngineOp.readLogs] completeState (by decide)).1,
   (C5_amended_monotone [EngineOp.getStatus 7 "inst-1", EngineOp.abort "stop",
      EngineOp.readLogs] completeState (by decide)).2⟩

/-- C7 counterexample: `getStatus` performs no timer work at all — on an
engine whose queue holds an already-due entry it returns the state
unchanged, with the due entry still enqueued, whereas the drain step
`popPastEntries` would remove it. -/
theorem C7_counterexample :
    (Engine.getStatus 7 "inst-1" dueState).2 = dueState ∧
    dueState.queue = [⟨1, 0, .Add, 0, "h"⟩] ∧
    (popPastEntries 0 dueState).queue = [] :=
  ⟨rfl, rfl, rfl⟩

/-- C7 amended: only `init` drains due timers and re-arms the wake-up:
its resulting queue and alarm are exactly those of `handleNextAlarm`
after `popPastEntries`, performed before its own work (which never
touches them again); the other five operations leave the timer queue
and the alarm untouched (`getStatus`, `readLogs`, `abort` and
`userTriggeredTerminate` leave the whole state unchanged). -/
theorem C7_amended_only_init_drains (runner : WorkflowEvent → StepOutcome)
    (now a a2 : Nat) (w : DatabaseWorkflow) (v : DatabaseVersion)
    (inst : DatabaseInstance) (ev : WorkflowEvent) (i2 reason : String)
    (st : InstanceStatus) (s : EngineState) :
    (Engine.init runner now a w v inst ev s).2.queue =
      (handleNextAlarm (popPastEntries now s)).queue ∧
    (Engine.init runner now a w v inst ev s).2.alarm =
      (handleNextAlarm (popPastEntries now s)).alarm ∧
    (Engine.getStatus a2 i2 s).2 = s ∧
    (Engine.setStatus a2 i2 st s).queue = s.queue ∧
    (Engine.setStatus a2 i2 st s).alarm = s.alarm ∧
    (Engine.readLogs s).2 = s ∧
    Engine.abort reason s = s ∧
    Engine.userTriggeredTerminate s = s :=
  ⟨init_queue runner now a w v inst ev s, init_alarm runner now a w v inst ev s,
   rfl, rfl, rfl, rfl, rfl, rfl⟩

/-! Machinery for the priority-queue uniqueness invariant. -/

/-- At most one row per `(action, entryType, hash)` triple: the
`UNIQUE (action, entryType, hash)` constraint of the `priority_queue`
table. -/
def queueUnique (q : List ScheduledEntry) : Prop :=
  (q.map entryKey).Nodup

/-- An operation touching the priority queue: a public engine operation,
or a scheduling request (`enqueue` / `cancel`) issued by a component
owning timers. -/
inductive SchedulerOp where
  | engine (op : EngineOp) : SchedulerOp
  | enqueue (ty : Nat) (h : String) (target : Nat) : SchedulerOp
  | cancel (ty : Nat) (h : String) (target : Nat) : SchedulerOp

/-- The state transformation of one scheduler-level operation. -/
def applySchedulerOp : SchedulerOp → EngineState → EngineState
  | .engine op, s => applyEngineOp op s
  | .enqueue ty h t, s => pqEnqueue ty h t s
  | .cancel ty h t, s => pqCancel ty h t s

/-- Sequential execution of scheduler-level operations. -/
def applySchedulerOps (ops : List SchedulerOp) (s : EngineState) : EngineState :=
  ops.foldl (fun s op => applySchedulerOp op s) s

/-- Filtering rows preserves key uniqueness. -/
theorem queueUnique_filter (p : ScheduledEntry → Bool) (q : List ScheduledEntry)
    (hq : queueUnique q) : queueUnique (q.filter p) :=
  ((q.filter_sublist).map entryKey).nodup hq

/-- If the dedup check reports the key absent, it is not among the row
keys. -/
theorem key_not_mem_of_any_false (q : List ScheduledEntry) (k : PQAction × Nat × String)
    (h : q.any (fun e => decide (entryKey e = k)) = false) :
    k ∉ q.map entryKey := by
  intro hk
  rw [List.mem_map] at hk
  obtain ⟨e, he, hek⟩ := hk
  have : q.any (fun e => decide (entryKey e = k)) = true :=
    List.any_eq_true.mpr ⟨e, he, by simp [hek]⟩
  rw [h] at this
  cases this

/-- Appending a row whose key is absent preserves key uniqueness. -/
theorem queueUnique_append (q : List ScheduledEntry) (e : ScheduledEntry)
    (hq : queueUnique q) (he : entryKey e ∉ q.map entryKey) :
    queueUnique (q ++ [e]) := by
  unfold queueUnique
  rw [List.map_append]
  refine List.Nodup.append hq (List.nodup_singleton _) ?_
  intro x hx hx'
  rw [List.map_singleton, List.mem_singleton] at hx'
  exact he (hx' ▸ hx)

/-- `enqueue` preserves the uniqueness invariant: a duplicate
`(Add, entryType, hash)` insertion is a no-op. -/
theorem pqEnqueue_unique (ty : Nat) (h : String) (t : Nat) (s : EngineState)
    (hq : queueUnique s.queue) : queueUnique (pqEnqueue ty h t s).queue := by
  unfold pqEnqueue
  split
  · exact hq
  · rename_i hany
    exact queueUnique_append s.queue _ hq
      (key_not_mem_of_any_false s.queue _ (by simpa using hany))

/-- `cancel` preserves the uniqueness invariant: a duplicate
`(Delete, entryType, hash)` insertion is a no-op. -/
theorem pqCancel_unique (ty : Nat) (h : String) (t : Nat) (s : EngineState)
    (hq : queueUnique s.queue) : queueUnique (pqCancel ty h t s).queue := by
  unfold pqCancel
  split
  · exact hq
  · rename_i hany
    exact queueUnique_append s.queue _ hq
      (key_not_mem_of_any_false s.queue _ (by simpa using hany))

/-- Every public engine operation preserves the uniqueness invariant:
the only queue mutation an engine operation performs is the drain
(a row removal). -/
theorem applyEngineOp_unique (op : EngineOp) (s : EngineState)
    (hq : queueUnique s.queue) : queueUnique (applyEngineOp op s).queue := by
  cases op with
  | init runner now a w v inst ev =>
    show queueUnique (Engine.init runner now a w v inst ev s).2.queue
    rw [init_queue, arm_queue]
    exact queueUnique_filter _ _ hq
  | getStatus a i => exact hq
  | setStatus a i st => exact hq
  | readLogs => exact hq
  | abort r => exact hq
  | userTriggeredTerminate => exact hq

/-- Every scheduler-level operation preserves the uniqueness invariant. -/
theorem applySchedulerOp_unique (op : SchedulerOp) (s : EngineState)
    (hq : queueUnique s.queue) : queueUnique (applySchedulerOp op s).queue := by
  cases op with
  | engine op => exact applyEngineOp_unique op s hq
  | enqueue ty h t => exact pqEnqueue_unique ty h t s hq
  | cancel ty h t => exact pqCancel_unique ty h t s hq

/-- C9: in every state reachable from a fresh engine through engine
operations and scheduling requests, the `priority_queue` table holds at
most one row per `(action, entryType, hash)` triple. -/
theorem C9_queue_unique (ops : List SchedulerOp) :
    queueUnique (applySchedulerOps ops initialEngineState).queue := by
  have main : ∀ s : EngineState, queueUnique s.queue →
      queueUnique (applySchedulerOps ops s).queue := by
    induction ops with
    | nil => exact fun s hs => hs
    | cons op ops ih =>
      intro s hs
      exact ih (applySchedulerOp op s) (applySchedulerOp_unique op s hs)
  exact main initialEngineState (by simp [queueUnique, initialEngineState])

end Wrangler
